import Mathlib

/-!
Shallow embedding of `src/prompt_generator.py`.

Strings are modelled as `List Char` (`Str`); the newline character is LF,
and Python's whitespace set is modelled by its ASCII members.  Python
methods used by the source are given faithful counterparts:
`str.strip` → `strip`, `str.split('\n')` → `splitNl`,
`str.splitlines` (on stripped text) → `pySplitlines`,
`'\n'.join` → `joinNl`, `str.upper`/`str.lower` (ASCII) → `pyUpper`/`pyLower`,
the `in` substring test → `containsSub`, slicing `[:n]` → `List.take`,
`line.split(':', 1)[1]` → `afterColon`.
-/

abbrev Str := List Char

/-- The ASCII whitespace characters recognised by Python's `str.strip`. -/
def pySpace (c : Char) : Bool :=
  c == ' ' || c == '\t' || c == '\n' || c == '\r' ||
    c == Char.ofNat 11 || c == Char.ofNat 12

/-- Python `str.lstrip()`. -/
def lstrip (s : Str) : Str := s.dropWhile pySpace

/-- Python `str.rstrip()`. -/
def rstrip (s : Str) : Str := (s.reverse.dropWhile pySpace).reverse

/-- Python `str.strip()`. -/
def strip (s : Str) : Str := rstrip (lstrip s)

/-- Python `s.split('\n')`: always at least one piece; `""` gives `[""]`. -/
def splitNl : Str → List Str
  | [] => [[]]
  | c :: t =>
    if c = '\n' then [] :: splitNl t
    else
      match splitNl t with
      | [] => [[c]]
      | l :: ls => (c :: l) :: ls

/-- Python `s.splitlines()` for text with no trailing newline: `""` gives `[]`.
In the source it is only applied to stripped text, where this is exact. -/
def pySplitlines (s : Str) : List Str :=
  if s = [] then [] else splitNl s

/-- Python `'\n'.join`. -/
def joinNl : List Str → Str
  | [] => []
  | [l] => l
  | l :: l' :: ls => l ++ '\n' :: joinNl (l' :: ls)

/-- Python falsiness of `line.strip()`: the line is all whitespace. -/
def isBlank (l : Str) : Bool := l.all pySpace

/-- Python `len(line) - len(line.lstrip())`: width of the whitespace prefix. -/
def indentOf (l : Str) : Nat := (l.takeWhile pySpace).length

/-- Python `min` over a list of naturals (`0` on `[]`, which the source
never reaches). -/
def minOf : List Nat → Nat
  | [] => 0
  | n :: t => t.foldl Nat.min n

/-- `startsWith n h`: `n` is a prefix of `h`. -/
def startsWith : Str → Str → Bool
  | [], _ => true
  | _ :: _, [] => false
  | a :: as, b :: bs => a == b && startsWith as bs

/-- Python's substring test `n in h`. -/
def containsSub (n : Str) : Str → Bool
  | [] => startsWith n []
  | c :: t => startsWith n (c :: t) || containsSub n t

/-- ASCII `str.upper` on one character. -/
def pyUpperChar (c : Char) : Char :=
  if 97 ≤ c.toNat && c.toNat ≤ 122 then Char.ofNat (c.toNat - 32) else c

/-- ASCII `str.lower` on one character. -/
def pyLowerChar (c : Char) : Char :=
  if 65 ≤ c.toNat && c.toNat ≤ 90 then Char.ofNat (c.toNat + 32) else c

/-- Python `str.upper` (ASCII). -/
def pyUpper (s : Str) : Str := s.map pyUpperChar

/-- Python `str.lower` (ASCII). -/
def pyLower (s : Str) : Str := s.map pyLowerChar

/-- Python `line.split(':', 1)[1]` (defined when `':' ∈ line`). -/
def afterColon (line : Str) : Str :=
  (line.dropWhile (fun c => !(c == ':'))).tail

/-- `CodeBlock` (pydantic model) or the raw-dict alternative the source
accepts in its place; a dict may lack the `'code'` key. -/
inductive Frag
  | block (start_line end_line : Int) (code : Str) (line_count : Int)
  | dict (code : Option Str)
deriving DecidableEq

/-- `chunk.code` for a `CodeBlock`, `chunk.get('code', '')` for a dict. -/
def fragCode : Frag → Str
  | .block _ _ c _ => c
  | .dict c => c.getD []

/-- An element of `similar_codes`: a dict possibly lacking each key.
The similarity value is modelled by its interpolated string form. -/
structure Similar where
  file : Option Str
  code : Option Str
  similarity : Option Str
deriving DecidableEq

namespace CodeReviewPromptGenerator

/-- `CodeReviewPromptGenerator._clean_code`. -/
def clean_code (code : Str) : Str :=
  if code = [] then code
  else
    let lines := pySplitlines (strip code)
    if lines = [] then []
    else
      let non_empty_lines := lines.filter (fun l => !(isBlank l))
      if non_empty_lines = [] then []
      else
        let min_indent := minOf (non_empty_lines.map indentOf)
        joinNl (lines.map (fun l => if isBlank l then [] else l.drop min_indent))

/-- The fenced block `f"```python\n{clean_code}\n```"`. -/
def fence (s : Str) : Str := "```python\n".toList ++ s ++ "\n```".toList

/-- The `added_blocks` / `deleted_blocks` loops of
`generate_style_review_prompt`: clean each fragment's code, keep the
non-empty results, fence them. -/
def blocksOf (l : List Frag) : List Str :=
  (((l.map fragCode).map clean_code).filter (fun c => !(c.isEmpty))).map fence

/-- The `context_section` local of `generate_style_review_prompt`. -/
def contextSection (full_function_code function_name : Str)
    (has_additions has_deletions : Bool) : Str :=
  if full_function_code.isEmpty then []
  else if has_deletions && !has_additions then
    "Current function `".toList ++ function_name ++
      "` (after removal):\n```python\n".toList ++
      clean_code full_function_code ++ "\n```\n".toList
  else if has_additions || (has_additions && has_deletions) then
    "Full function `".toList ++ function_name ++ "`:\n```python\n".toList ++
      clean_code full_function_code ++ "\n```\n".toList
  else []

/-- The `changes_section` local of `generate_style_review_prompt`. -/
def changesSection (added_blocks deleted_blocks : List Str) : Str :=
  let s1 : Str :=
    if added_blocks.isEmpty then []
    else "### ADDED:\n".toList ++ joinNl added_blocks ++ "\n".toList
  let s2 : Str :=
    if deleted_blocks.isEmpty then []
    else
      (if !deleted_blocks.isEmpty && added_blocks.isEmpty then
        "### REMOVED (these lines were deleted from the function above):\n".toList
      else "### REMOVED:\n".toList) ++ joinNl deleted_blocks ++ "\n".toList
  if s1 ++ s2 = [] then "No code changes detected.\n".toList else s1 ++ s2

/-- The `instruction_context` local of `generate_style_review_prompt`. -/
def instructionContext (has_additions has_deletions : Bool) : Str :=
  if has_deletions && !has_additions then
    " The function shown above is the current state after the removal.".toList
  else []

/-- The fixed text of the style prompt before `{instruction_context}`. -/
def styleHead : Str :=
  ("### Instruction:\nYou are a code reviewer. Analyze this Python code " ++
    "change and respond EXACTLY in the format below.").toList

/-- The fixed text of the style prompt after `{changes_section}`. -/
def styleFooter : Str :=
  ("\n### Response:\nSUMMARY: [One sentence describing what changed]\n" ++
    "ISSUES: [List specific bugs/problems, or write \"None found\"]\n" ++
    "IMPROVEMENTS: [Suggest specific improvements, or write \"None needed\"]\n" ++
    "DECISION: [Yes/No] - [One sentence reason]").toList

/-- `CodeReviewPromptGenerator.generate_style_review_prompt`. -/
def generate_style_review_prompt (added_code deleted_code : List Frag)
    (full_function_code function_name : Str) : Str :=
  let added_blocks := blocksOf added_code
  let deleted_blocks := blocksOf deleted_code
  let has_additions := !added_blocks.isEmpty
  let has_deletions := !deleted_blocks.isEmpty
  strip (styleHead ++ instructionContext has_additions has_deletions ++
    "\n\n".toList ++
    contextSection full_function_code function_name has_additions has_deletions ++
    changesSection added_blocks deleted_blocks ++ styleFooter)

/-- `CodeReviewPromptGenerator.generate_duplication_check_prompt`. -/
def generate_duplication_check_prompt (code_snippet : Str)
    (similar_codes : List Similar) (function_name : Str) : Str :=
  if strip code_snippet = [] then []
  else
    match similar_codes with
    | [] => []
    | most_similar :: _ =>
      strip (("Check for code duplication. Respond EXACTLY in the format " ++
        "below.\n\nCurrent code from `").toList ++ function_name ++
        "`:\n```python\n".toList ++ clean_code code_snippet ++
        "\n```\n\nSimilar code from `".toList ++
        most_similar.file.getD ("unknown_file".toList) ++ "` (".toList ++
        most_similar.similarity.getD ("N/A".toList) ++
        "% similar):\n```python\n".toList ++
        clean_code (most_similar.code.getD []) ++
        ("\n```\n\nYou MUST respond in this EXACT format:\n\n" ++
          "DUPLICATION LEVEL: [None/Low/Medium/High]\n\n" ++
          "ANALYSIS: [Are these actual duplicates? One sentence.]\n\n" ++
          "RECOMMENDATION: [What action to take? One sentence.]\n\n" ++
          "Do not add extra text.").toList)

/-- The loop of `extract_key_info`: a matching line with a colon returns the
trimmed text after its first colon; a matching line without a colon is
passed over; `"No issues"` when the lines run out. -/
def extractLoop (keywordUpper : Str) : List Str → Str
  | [] => "No issues".toList
  | line :: rest =>
    if containsSub keywordUpper (pyUpper line) then
      if line.contains ':' then strip (afterColon line)
      else extractLoop keywordUpper rest
    else extractLoop keywordUpper rest

/-- `extract_key_info` (nested inside `generate_summary_prompt`). -/
def extract_key_info (result keyword : Str) : Str :=
  if result = [] || containsSub ("sorry".toList) (pyLower result) then
    "No issues".toList
  else extractLoop (pyUpper keyword) (splitNl result)

/-- `CodeReviewPromptGenerator.generate_summary_prompt`. -/
def generate_summary_prompt (style_result duplication_result function_name : Str) :
    Str :=
  strip (("Based on these code review results for function `").toList ++
    function_name ++ "`, make a final decision:\n\nSTYLE REVIEW FOUND: ".toList ++
    extract_key_info style_result ("ISSUES".toList) ++
    "\nSTYLE DECISION: ".toList ++
    extract_key_info style_result ("DECISION".toList) ++
    "\nDUPLICATION LEVEL: ".toList ++
    extract_key_info duplication_result ("DUPLICATION LEVEL".toList) ++
    ("\n\nYour job: Decide if this code change should be approved based on " ++
      "the findings above.\n\nResponse format:\nISSUES FOUND: [Summarize " ++
      "actual problems found, or \"None\"]\n\nPRIORITY: [High/Medium/Low]\n\n" ++
      "RECOMMENDATION: [Approve/Request Changes/Needs Discussion]\n\n" ++
      "REASON: [Why you made this recommendation]\n\n" ++
      "Focus on the CODE QUALITY, not the review format.").toList)

/-- The `payload_data` dict of `generate_contextual_review_prompt`, with
each `get` default already applied. -/
structure Payload where
  added_code : List Frag
  deleted_code : List Frag
  full_function_code : Str
  function_name : Str

/-- `CodeReviewPromptGenerator.generate_contextual_review_prompt`. -/
def generate_contextual_review_prompt (payload_data : Payload) : Str :=
  generate_style_review_prompt payload_data.added_code payload_data.deleted_code
    payload_data.full_function_code payload_data.function_name

end CodeReviewPromptGenerator

namespace MinimalCodeReviewPrompts

/-- `MinimalCodeReviewPrompts._clean_code`: `code.strip()[:400] if code else ""`. -/
def clean_code (code : Str) : Str :=
  if code = [] then [] else (strip code).take 400

/-- The `added_text` / `deleted_text` locals of `generate_review_prompt`:
the first fragment's code, or `""` for an empty list. -/
def firstCode (l : List Frag) : Str :=
  match l with
  | [] => []
  | f :: _ => fragCode f

/-- The fixed tail of the minimal review prompt. -/
def reviewFooter : Str :=
  ("\nFormat your response EXACTLY like this:\n\n" ++
    "ISSUES: [List problems or \"None\"]\nAPPROVE: [Yes/No]\n" ++
    "REASON: [One sentence]\n\nNo other text allowed.").toList

/-- `MinimalCodeReviewPrompts.generate_review_prompt`. -/
def generate_review_prompt (added_code deleted_code : List Frag)
    (function_name : Str) : Str :=
  let added_text := firstCode added_code
  let deleted_text := firstCode deleted_code
  "Code review for function `".toList ++ function_name ++
    "`. Answer in EXACT format below.\n\n".toList ++
    (if added_text = [] then []
     else "NEW CODE:\n```python\n".toList ++ clean_code added_text ++
       "\n```\n".toList) ++
    (if deleted_text = [] then []
     else "REMOVED CODE:\n```python\n".toList ++ clean_code deleted_text ++
       "\n```\n".toList) ++
    reviewFooter

/-- The canned answer of `generate_duplication_prompt` for no matches. -/
def noDupAnswer : Str :=
  "No similar code found.\n\nDUPLICATE: No\nACTION: None needed".toList

/-- `MinimalCodeReviewPrompts.generate_duplication_prompt`. -/
def generate_duplication_prompt (code_snippet : Str)
    (similar_codes : List Similar) : Str :=
  match similar_codes with
  | [] => noDupAnswer
  | m :: _ =>
    "Compare these code blocks:\n\nCODE A:\n```python\n".toList ++
      clean_code code_snippet ++ "\n```\n\nCODE B:\n```python\n".toList ++
      clean_code (m.code.getD []) ++
      ("\n```\n\nResponse format:\nDUPLICATE: [Yes/No]\n" ++
        "ACTION: [Combine/Keep separate/Review needed]").toList

end MinimalCodeReviewPrompts

/-- The two classes the factory can instantiate. -/
inductive GeneratorKind
  | full
  | minimal
deriving DecidableEq

/-- `get_prompt_generator`. -/
def get_prompt_generator (model_name : Str) : GeneratorKind :=
  if containsSub ("deepseek".toList) (pyLower model_name) ||
      containsSub ("coder".toList) (pyLower model_name) then
    GeneratorKind.minimal
  else GeneratorKind.full

/-- Map a whitespace-only line to the empty line, keep any other line. -/
def collapseLine (l : Str) : Str := if isBlank l then [] else l

/-- `strip` followed by collapsing whitespace-only lines to empty lines:
the behaviour `clean_code` is proved below to implement, because the common
indent it computes after the initial `strip` is always `0`. -/
def stripCollapse (s : Str) : Str :=
  joinNl ((pySplitlines (strip s)).map collapseLine)

theorem head?_append_left {α : Type} {xs : List α} (ys : List α) {c : α}
    (h : xs.head? = some c) : (xs ++ ys).head? = some c := by
  cases xs with
  | nil => simp at h
  | cons a t => simpa using h

theorem splitNl_ne_nil (x : Str) : splitNl x ≠ [] := by
  cases x with
  | nil => simp [splitNl]
  | cons c t =>
    simp only [splitNl]
    split
    · simp
    · cases splitNl t <;> simp

theorem splitNl_cons_ne {c : Char} (hc : c ≠ '\n') (t : Str) :
    ∃ m ms, splitNl t = m :: ms ∧ splitNl (c :: t) = (c :: m) :: ms := by
  cases h : splitNl t with
  | nil => exact absurd h (splitNl_ne_nil t)
  | cons m ms => exact ⟨m, ms, rfl, by simp [splitNl, hc, h]⟩

theorem mem_splitNl_no_nl : ∀ {x l : Str}, l ∈ splitNl x → '\n' ∉ l := by
  intro x
  induction x with
  | nil =>
    intro l hl
    simp [splitNl] at hl
    subst hl; simp
  | cons c t ih =>
    intro l hl
    by_cases hc : c = '\n'
    · subst hc
      simp only [splitNl, if_pos rfl] at hl
      rcases List.mem_cons.1 hl with h | h
      · subst h; simp
      · exact ih h
    · obtain ⟨m, ms, h1, h2⟩ := splitNl_cons_ne hc t
      rw [h2] at hl
      rcases List.mem_cons.1 hl with h | h
      · subst h
        intro hmem
        rcases List.mem_cons.1 hmem with e | e
        · exact hc e.symm
        · exact ih (h1 ▸ List.mem_cons_self m ms) e
      · exact ih (h1 ▸ List.mem_cons_of_mem m h)

theorem splitNl_single {l : Str} (h : '\n' ∉ l) : splitNl l = [l] := by
  induction l with
  | nil => rfl
  | cons c t ih =>
    have hc : c ≠ '\n' := fun e => h (e ▸ List.mem_cons_self c t)
    have ht : '\n' ∉ t := fun m => h (List.mem_cons_of_mem _ m)
    obtain ⟨m, ms, h1, h2⟩ := splitNl_cons_ne hc t
    rw [ih ht] at h1
    injection h1 with e1 e2
    subst e1; subst e2
    exact h2

theorem splitNl_append {a : Str} (ha : '\n' ∉ a) (y : Str) :
    splitNl (a ++ '\n' :: y) = a :: splitNl y := by
  induction a with
  | nil => simp [splitNl]
  | cons c t ih =>
    have hc : c ≠ '\n' := fun e => ha (e ▸ List.mem_cons_self c t)
    have ht : '\n' ∉ t := fun m => ha (List.mem_cons_of_mem _ m)
    obtain ⟨m, ms, h1, h2⟩ := splitNl_cons_ne hc (t ++ '\n' :: y)
    rw [ih ht] at h1
    injection h1 with e1 e2
    subst e1; subst e2
    rw [List.cons_append, h2]

theorem splitNl_joinNl : ∀ {L : List Str}, L ≠ [] → (∀ l ∈ L, '\n' ∉ l) →
    splitNl (joinNl L) = L := by
  intro L
  induction L with
  | nil => intro h; exact absurd rfl h
  | cons a r ih =>
    intro _ h
    cases r with
    | nil => simpa [joinNl] using splitNl_single (h a (List.mem_cons_self a []))
    | cons b r' =>
      rw [joinNl, splitNl_append (h a (List.mem_cons_self a (b :: r')))]
      rw [ih (by simp) (fun l hl => h l (List.mem_cons_of_mem a hl))]

theorem joinNl_head {a : Char} {m : Str} (rest : List Str) :
    (joinNl ((a :: m) :: rest)).head? = some a := by
  cases rest with
  | nil => rfl
  | cons b r => rfl

theorem joinNl_append_single : ∀ (init : List Str) (l : Str),
    joinNl (init ++ [l]) = if init = [] then l else joinNl init ++ '\n' :: l
  | [], _ => rfl
  | [_], _ => rfl
  | a :: b :: r, l => by
    have ih := joinNl_append_single (b :: r) l
    rw [if_neg (by simp)] at ih
    show a ++ '\n' :: joinNl ((b :: r) ++ [l]) =
      if (a :: b :: r : List Str) = [] then l else joinNl (a :: b :: r) ++ '\n' :: l
    rw [ih, if_neg (by simp)]
    show a ++ '\n' :: (joinNl (b :: r) ++ '\n' :: l) =
      (a ++ '\n' :: joinNl (b :: r)) ++ '\n' :: l
    simp [List.append_assoc]

theorem revHead_append {xs ys : Str} {c : Char} (h : ys.reverse.head? = some c) :
    ((xs ++ ys).reverse).head? = some c := by
  rw [List.reverse_append]
  exact head?_append_left _ h

theorem joinNl_last {init : List Str} {l : Str} {c : Char}
    (h : l.reverse.head? = some c) :
    ((joinNl (init ++ [l])).reverse).head? = some c := by
  rw [joinNl_append_single]
  split
  · exact h
  · apply revHead_append
    rw [List.reverse_cons]
    exact head?_append_left _ h

theorem splitNl_last : ∀ {x : Str} {c : Char}, x.reverse.head? = some c →
    c ≠ '\n' → ∃ init l, splitNl x = init ++ [l] ∧ l.reverse.head? = some c := by
  intro x
  induction x with
  | nil => intro c h _; simp at h
  | cons a t ih =>
    intro c h hc
    cases ht : t with
    | nil =>
      subst ht
      have hac : a = c := by simpa using h
      subst hac
      refine ⟨[], [a], ?_, rfl⟩
      simp [splitNl, hc]
    | cons b t' =>
      subst ht
      have hrev : (b :: t').reverse.head? = some c := by
        rw [List.reverse_cons] at h
        cases hbr : (b :: t').reverse with
        | nil => exact absurd hbr (by simp)
        | cons d r =>
          rw [hbr] at h
          have hdc : d = c := by simpa using h
          show some d = some c
          rw [hdc]
      obtain ⟨init, l, h1, h2⟩ := ih hrev hc
      by_cases ha : a = '\n'
      · subst ha
        refine ⟨[] :: init, l, ?_, h2⟩
        have e : splitNl ('\n' :: b :: t') = [] :: splitNl (b :: t') := rfl
        rw [e, h1, List.cons_append]
      · obtain ⟨m, ms, hm1, hm2⟩ := splitNl_cons_ne ha (b :: t')
        rw [h1] at hm1
        cases init with
        | nil =>
          simp only [List.nil_append] at hm1
          injection hm1 with e1 e2
          subst e1; subst e2
          refine ⟨[], a :: l, by simpa using hm2, ?_⟩
          rw [List.reverse_cons]
          exact head?_append_left _ h2
        | cons i0 ir =>
          rw [List.cons_append] at hm1
          injection hm1 with e1 e2
          subst e1; subst e2
          exact ⟨(a :: i0) :: ir, l, by simpa using hm2, h2⟩

theorem lstrip_eq_self {s : Str} {c : Char} (h : s.head? = some c)
    (hc : pySpace c = false) : lstrip s = s := by
  cases s with
  | nil => simp at h
  | cons a t =>
    obtain rfl : a = c := by simpa using h
    simp [lstrip, List.dropWhile_cons, hc]

theorem rstrip_eq_self {s : Str} {c : Char} (h : s.reverse.head? = some c)
    (hc : pySpace c = false) : rstrip s = s := by
  cases hr : s.reverse with
  | nil => rw [hr] at h; simp at h
  | cons a t =>
    rw [hr] at h
    obtain rfl : a = c := by simpa using h
    unfold rstrip
    rw [hr, List.dropWhile_cons, hc]
    simp only [Bool.false_eq_true, if_false]
    rw [← hr, List.reverse_reverse]

theorem strip_eq_self_of {s : Str} {c d : Char} (h1 : s.head? = some c)
    (hc : pySpace c = false) (h2 : s.reverse.head? = some d)
    (hd : pySpace d = false) : strip s = s := by
  unfold strip
  rw [lstrip_eq_self h1 hc, rstrip_eq_self h2 hd]

theorem rstrip_append_eq (u : Str) :
    rstrip u ++ (u.reverse.takeWhile pySpace).reverse = u := by
  unfold rstrip
  rw [← List.reverse_append, List.takeWhile_append_dropWhile, List.reverse_reverse]

theorem head?_dropWhile_false {p : Char → Bool} :
    ∀ {s : Str} {c : Char}, (s.dropWhile p).head? = some c → p c = false := by
  intro s
  induction s with
  | nil => intro c h; simp at h
  | cons a t ih =>
    intro c h
    rw [List.dropWhile_cons] at h
    split at h
    · exact ih h
    · obtain rfl : a = c := by simpa using h
      rename_i hp
      simpa using hp

theorem strip_head {s : Str} (h : strip s ≠ []) :
    ∃ c t, strip s = c :: t ∧ pySpace c = false := by
  cases hs : strip s with
  | nil => exact absurd hs h
  | cons c t =>
    refine ⟨c, t, rfl, ?_⟩
    have h2 := rstrip_append_eq (lstrip s)
    unfold strip at hs
    rw [hs] at h2
    have hh : (lstrip s).head? = some c := by
      rw [← h2]
      exact head?_append_left _ rfl
    exact head?_dropWhile_false hh

theorem strip_last {s : Str} (h : strip s ≠ []) :
    ∃ c, (strip s).reverse.head? = some c ∧ pySpace c = false := by
  have e : (strip s).reverse = (lstrip s).reverse.dropWhile pySpace := by
    unfold strip rstrip
    rw [List.reverse_reverse]
  cases hv : (lstrip s).reverse.dropWhile pySpace with
  | nil =>
    exfalso
    apply h
    unfold strip rstrip
    rw [hv]
    rfl
  | cons c t =>
    refine ⟨c, ?_, ?_⟩
    · rw [e, hv]
      rfl
    · exact head?_dropWhile_false (p := pySpace) (by rw [hv]; rfl)

theorem foldl_min_zero : ∀ l : List Nat, l.foldl Nat.min 0 = 0 := by
  intro l
  induction l with
  | nil => rfl
  | cons a t ih =>
    rw [List.foldl_cons, show Nat.min 0 a = 0 from Nat.zero_min a]
    exact ih

theorem minOf_zero_cons (l : List Nat) : minOf (0 :: l) = 0 := foldl_min_zero l

theorem mem_of_head? {α : Type} {l : List α} {a : α} (h : l.head? = some a) :
    a ∈ l := by
  cases l with
  | nil => simp at h
  | cons b t =>
    obtain rfl : b = a := by simpa using h
    exact List.mem_cons_self b t

theorem isBlank_false_of_mem {l : Str} {c : Char} (hc : pySpace c = false)
    (hm : c ∈ l) : isBlank l = false := by
  by_contra h
  have h' : isBlank l = true := by simpa using h
  rw [isBlank, List.all_eq_true] at h'
  rw [h' c hm] at hc
  exact Bool.true_eq_false.mp hc

theorem collapseLine_of_false {l : Str} (h : isBlank l = false) :
    collapseLine l = l := by
  simp [collapseLine, h]

theorem collapseLine_idem (l : Str) :
    collapseLine (collapseLine l) = collapseLine l := by
  unfold collapseLine
  by_cases h : isBlank l = true
  · simp [h]
  · simp [h]

theorem clean_code_eq (s : Str) :
    CodeReviewPromptGenerator.clean_code s = stripCollapse s := by
  by_cases h0 : s = []
  · subst h0; rfl
  by_cases h1 : strip s = []
  · unfold CodeReviewPromptGenerator.clean_code stripCollapse
    rw [if_neg h0, h1]
    rfl
  obtain ⟨c, t, hct, hc⟩ := strip_head h1
  have hcn : c ≠ '\n' := fun e => by rw [e] at hc; simp [pySpace] at hc
  obtain ⟨m, ms, hm1, hm2⟩ := splitNl_cons_ne hcn t
  have hsplit : splitNl (strip s) = (c :: m) :: ms := by rw [hct, hm2]
  have hps : pySplitlines (strip s) = (c :: m) :: ms := by
    unfold pySplitlines
    rw [if_neg h1, hsplit]
  have hnb : isBlank (c :: m) = false :=
    isBlank_false_of_mem hc (List.mem_cons_self c m)
  have hind : indentOf (c :: m) = 0 := by
    simp [indentOf, List.takeWhile_cons, hc]
  unfold CodeReviewPromptGenerator.clean_code stripCollapse
  rw [if_neg h0, hps]
  simp [List.filter_cons, hnb, hind, minOf_zero_cons, List.drop_zero]
  rw [show (fun (l : Str) => if isBlank l = true then [] else l) = collapseLine
    from rfl, collapseLine_of_false hnb]

theorem stripCollapse_eq_of {u : Str} (h : strip u ≠ []) :
    stripCollapse u = joinNl ((splitNl (strip u)).map collapseLine) := by
  unfold stripCollapse pySplitlines
  rw [if_neg h]

theorem stripCollapse_out {s : Str} (h1 : strip s ≠ []) :
    strip (stripCollapse s) = stripCollapse s ∧ stripCollapse s ≠ [] ∧
      splitNl (stripCollapse s) = (splitNl (strip s)).map collapseLine := by
  obtain ⟨c, t, hct, hc⟩ := strip_head h1
  have hcn : c ≠ '\n' := fun e => by rw [e] at hc; simp [pySpace] at hc
  obtain ⟨m, ms, hm1, hm2⟩ := splitNl_cons_ne hcn t
  have hsplit : splitNl (strip s) = (c :: m) :: ms := by rw [hct, hm2]
  have hout : stripCollapse s = joinNl (((c :: m) :: ms).map collapseLine) := by
    rw [stripCollapse_eq_of h1, hsplit]
  have hnb : isBlank (c :: m) = false :=
    isBlank_false_of_mem hc (List.mem_cons_self c m)
  have hmapc : ((c :: m) :: ms).map collapseLine =
      (c :: m) :: ms.map collapseLine := by
    rw [List.map_cons, collapseLine_of_false hnb]
  have hhead : (stripCollapse s).head? = some c := by
    rw [hout, hmapc]
    exact joinNl_head _
  have hne : stripCollapse s ≠ [] := by
    intro e
    rw [e] at hhead
    simp at hhead
  obtain ⟨d, hd1, hd2⟩ := strip_last h1
  have hdn : d ≠ '\n' := fun e => by rw [e] at hd2; simp [pySpace] at hd2
  obtain ⟨init, l, hi1, hi2⟩ := splitNl_last hd1 hdn
  have hlnb : isBlank l = false := by
    apply isBlank_false_of_mem hd2
    have : d ∈ l.reverse := mem_of_head? hi2
    simpa using this
  have hmapl : (splitNl (strip s)).map collapseLine =
      (init.map collapseLine) ++ [l] := by
    rw [hi1, List.map_append]
    simp [collapseLine_of_false hlnb]
  have hlast : (stripCollapse s).reverse.head? = some d := by
    have e : stripCollapse s = joinNl ((init.map collapseLine) ++ [l]) := by
      rw [stripCollapse_eq_of h1, hmapl]
    rw [e]
    exact joinNl_last hi2
  refine ⟨strip_eq_self_of hhead hc hlast hd2, hne, ?_⟩
  rw [hout, hsplit]
  apply splitNl_joinNl
  · rw [hmapc]; simp
  · intro l' hl'
    rw [List.mem_map] at hl'
    obtain ⟨l0, hl0, rfl⟩ := hl'
    by_cases hb : isBlank l0 = true
    · simp [collapseLine, hb]
    · rw [collapseLine_of_false (by simpa using hb)]
      exact mem_splitNl_no_nl (hsplit ▸ hl0)

theorem stripCollapse_idem (s : Str) :
    stripCollapse (stripCollapse s) = stripCollapse s := by
  by_cases h1 : strip s = []
  · have e : stripCollapse s = [] := by
      unfold stripCollapse
      rw [h1]
      rfl
    rw [e]
    rfl
  · obtain ⟨hstrip, hne, hsplitOut⟩ := stripCollapse_out h1
    rw [stripCollapse_eq_of (u := stripCollapse s) (by rw [hstrip]; exact hne)]
    rw [hstrip, hsplitOut, List.map_map,
      show collapseLine ∘ collapseLine = collapseLine from funext collapseLine_idem,
      ← stripCollapse_eq_of h1]

theorem startsWith_refl : ∀ n : Str, startsWith n n = true := by
  intro n
  induction n with
  | nil => rfl
  | cons a t ih => simp [startsWith, ih]

theorem startsWith_append_right {n l : Str} (h : startsWith n l = true)
    (y : Str) : startsWith n (l ++ y) = true := by
  induction n generalizing l with
  | nil => rfl
  | cons a as ih =>
    cases l with
    | nil => simp [startsWith] at h
    | cons b bs =>
      simp [startsWith] at h ⊢
      exact ⟨h.1, ih h.2⟩

theorem containsSub_refl (n : Str) : containsSub n n = true := by
  cases n with
  | nil => rfl
  | cons c t => simp [containsSub, startsWith_refl]

theorem containsSub_nil_left (y : Str) : containsSub [] y = true := by
  cases y with
  | nil => rfl
  | cons c t => simp [containsSub, startsWith]

theorem containsSub_append_right {n y : Str} (h : containsSub n y = true)
    (x : Str) : containsSub n (x ++ y) = true := by
  induction x with
  | nil => simpa using h
  | cons a xs ih => simp [containsSub, ih]

theorem containsSub_append_left {n x : Str} (h : containsSub n x = true)
    (y : Str) : containsSub n (x ++ y) = true := by
  induction x with
  | nil =>
    have hn : n = [] := by
      cases n with
      | nil => rfl
      | cons a as => simp [containsSub, startsWith] at h
    subst hn
    exact containsSub_nil_left y
  | cons a xs ih =>
    rw [containsSub] at h
    rcases Bool.or_eq_true _ _ |>.mp h with h' | h'
    · rw [List.cons_append, containsSub]
      have : startsWith n ((a :: xs) ++ y) = true := startsWith_append_right h' y
      rw [List.cons_append] at this
      simp [this]
    · rw [List.cons_append, containsSub]
      simp [ih h']

theorem isEmpty_false_of_ne {α : Type} {l : List α} (h : l ≠ []) :
    l.isEmpty = false := by
  cases l with
  | nil => exact absurd rfl h
  | cons a t => rfl

theorem extractLoop_eq (kU : Str) (lines : List Str) :
    CodeReviewPromptGenerator.extractLoop kU lines =
      match (lines.filter
          (fun l => containsSub kU (pyUpper l) && l.contains ':')).head? with
      | some l => strip (afterColon l)
      | none => "No issues".toList := by
  induction lines with
  | nil => rfl
  | cons line rest ih =>
    show (if containsSub kU (pyUpper line) = true then
        if line.contains ':' = true then strip (afterColon line)
        else CodeReviewPromptGenerator.extractLoop kU rest
      else CodeReviewPromptGenerator.extractLoop kU rest) = _
    rw [List.filter_cons]
    by_cases h1 : containsSub kU (pyUpper line) = true
    · by_cases h2 : line.contains ':' = true
      · rw [if_pos h1, if_pos h2, if_pos (show (containsSub kU (pyUpper line) &&
          line.contains ':') = true by rw [h1, h2]; rfl)]
        rfl
      · rw [if_pos h1, if_neg h2, if_neg (show ¬((containsSub kU (pyUpper line) &&
          line.contains ':') = true) by rw [h1, Bool.true_and]; exact h2)]
        exact ih
    · have h1' : containsSub kU (pyUpper line) = false := by simpa using h1
      rw [if_neg h1, if_neg (show ¬((containsSub kU (pyUpper line) &&
          line.contains ':') = true) by rw [h1', Bool.false_and]; decide)]
      exact ih

/-- C1: on the two-line input `"  a\n  b"`, whose non-blank lines share the
common leading-whitespace width 2, `_clean_code` returns `"a\n  b"` rather
than removing the common width from every non-blank line (which would give
`"a\nb"`): the initial `strip()` already deleted the first line's
indentation, so the computed common indent is 0 and the second line keeps
its two spaces, changing the two lines' relative indentation from equal to
differing by 2. -/
theorem claim_C1_normalizer_failing_input :
    CodeReviewPromptGenerator.clean_code ("  a\n  b".toList) = "a\n  b".toList ∧
    minOf (((splitNl ("  a\n  b".toList)).filter
      (fun l => !(isBlank l))).map indentOf) = 2 ∧
    (splitNl ("  a\n  b".toList)).map indentOf = [2, 2] ∧
    (splitNl (CodeReviewPromptGenerator.clean_code ("  a\n  b".toList))).map
      indentOf = [0, 2] ∧
    CodeReviewPromptGenerator.clean_code ("  a\n  b".toList) ≠ "a\nb".toList := by
  decide

/-- C2 (counterexample): on `"ISSUES none here\nISSUES: real"` with label
`"ISSUES"`, the first line matches the label and has no colon, so the claim
requires the sentinel `"No issues"`; the code instead skips that line and
returns `"real"` from the second matching line. -/
theorem claim_C2_counterexample :
    CodeReviewPromptGenerator.extract_key_info
        ("ISSUES none here\nISSUES: real".toList) ("ISSUES".toList) =
      "real".toList ∧
    (splitNl ("ISSUES none here\nISSUES: real".toList)).head? =
      some ("ISSUES none here".toList) ∧
    containsSub (pyUpper ("ISSUES".toList))
      (pyUpper ("ISSUES none here".toList)) = true ∧
    ("ISSUES none here".toList).contains ':' = false ∧
    ("real".toList : Str) ≠ "No issues".toList := by
  decide

/-- C2 (amended): `extract_key_info` returns the trimmed text after the
first colon of the first line that both contains the uppercased label
(as a substring of the uppercased line) and contains a colon; it returns
the sentinel `"No issues"` when the input is empty, when the input
contains the case-insensitive substring `"sorry"`, or when no line both
matches the label and has a colon — a matching line without a colon is
skipped, not terminal. -/
theorem claim_C2_extraction (result keyword : Str) :
    CodeReviewPromptGenerator.extract_key_info result keyword =
      if result = [] || containsSub ("sorry".toList) (pyLower result) then
        "No issues".toList
      else
        match ((splitNl result).filter
            (fun l => containsSub (pyUpper keyword) (pyUpper l) &&
              l.contains ':')).head? with
        | some l => strip (afterColon l)
        | none => "No issues".toList := by
  unfold CodeReviewPromptGenerator.extract_key_info
  split_ifs
  · rfl
  · exact extractLoop_eq _ _

/-- C4: the full generator's indentation normalizer is idempotent:
`_clean_code (_clean_code s) = _clean_code s` for every input string. -/
theorem claim_C4_idempotent (s : Str) :
    CodeReviewPromptGenerator.clean_code (CodeReviewPromptGenerator.clean_code s) =
      CodeReviewPromptGenerator.clean_code s := by
  rw [clean_code_eq, clean_code_eq, stripCollapse_idem]

/-- C7: the minimal generator's cleaning step equals trimming surrounding
whitespace and truncating to the first 400 characters, for every input
(in particular the empty input maps to the empty string, and an input
whose trimmed form has at least 400 characters maps to exactly the first
400 characters of the trimmed form). -/
theorem claim_C7_minimal_clean (code : Str) :
    MinimalCodeReviewPrompts.clean_code code = (strip code).take 400 := by
  unfold MinimalCodeReviewPrompts.clean_code
  by_cases h : code = []
  · subst h; rfl
  · rw [if_neg h]

/-- C8: the factory returns the minimal generator exactly when the
lowercased model name contains `"deepseek"` or `"coder"` as a substring,
and the full generator otherwise (including for the empty name). -/
theorem claim_C8_selector :
    (∀ model_name : Str,
      get_prompt_generator model_name = GeneratorKind.minimal ↔
        (containsSub ("deepseek".toList) (pyLower model_name) = true ∨
          containsSub ("coder".toList) (pyLower model_name) = true)) ∧
    get_prompt_generator ("deepseek-coder-6.7b".toList) = GeneratorKind.minimal ∧
    get_prompt_generator ("gpt-4".toList) = GeneratorKind.full ∧
    get_prompt_generator [] = GeneratorKind.full := by
  refine ⟨?_, by decide, by decide, by decide⟩
  intro mn
  cases hdeep : containsSub ("deepseek".toList) (pyLower mn) <;>
    cases hcod : containsSub ("coder".toList) (pyLower mn) <;>
      simp only [get_prompt_generator, hdeep, hcod] <;> decide

theorem strip_ne_nil_of_head {s : Str} {c : Char} (h : s.head? = some c)
    (hc : pySpace c = false) : strip s ≠ [] := by
  intro e
  rw [strip, lstrip_eq_self h hc] at e
  have e2 : s.reverse.dropWhile pySpace = [] := by
    have := congrArg List.reverse e
    simpa [rstrip] using this
  have hall : ∀ x ∈ s.reverse, pySpace x = true :=
    fun x hx => List.dropWhile_eq_nil_iff.mp e2 x hx
  have hcs : c ∈ s := mem_of_head? h
  have := hall c (by simpa using hcs)
  rw [this] at hc
  exact Bool.true_eq_false.mp hc

theorem map_eq_of_forall₂ {l1 l2 : List Frag}
    (h : List.Forall₂ (fun x y => fragCode x = fragCode y) l1 l2) :
    l1.map fragCode = l2.map fragCode := by
  induction h with
  | nil => rfl
  | cons h _ ih => simp [h, ih]

theorem blocksOf_eq {l1 l2 : List Frag}
    (h : l1.map fragCode = l2.map fragCode) :
    CodeReviewPromptGenerator.blocksOf l1 = CodeReviewPromptGenerator.blocksOf l2 := by
  unfold CodeReviewPromptGenerator.blocksOf
  rw [h]

/-- C5: the full generator's duplication check prompt is empty exactly when
the snippet is blank (strips to nothing) or the match list is empty; and in
the non-empty case the prompt is built from the first match only, so the
tail of the match list is irrelevant. -/
theorem claim_C5_duplication_empty_iff (code_snippet : Str)
    (similar_codes : List Similar) (function_name : Str) :
    (CodeReviewPromptGenerator.generate_duplication_check_prompt code_snippet
        similar_codes function_name = [] ↔
      (strip code_snippet = [] ∨ similar_codes = [])) ∧
    (∀ (m : Similar) (r r' : List Similar),
      CodeReviewPromptGenerator.generate_duplication_check_prompt code_snippet
          (m :: r) function_name =
        CodeReviewPromptGenerator.generate_duplication_check_prompt code_snippet
          (m :: r') function_name) := by
  constructor
  · constructor
    · intro h
      by_cases hs : strip code_snippet = []
      · exact Or.inl hs
      cases hsim : similar_codes with
      | nil => exact Or.inr rfl
      | cons m r =>
        exfalso
        unfold CodeReviewPromptGenerator.generate_duplication_check_prompt at h
        rw [if_neg hs, hsim] at h
        apply strip_ne_nil_of_head (c := 'C') ?_ (by decide) h
        repeat apply head?_append_left
        rfl
    · intro h
      unfold CodeReviewPromptGenerator.generate_duplication_check_prompt
      rcases h with h | h
      · rw [if_pos h]
      · subst h
        by_cases hs : strip code_snippet = []
        · rw [if_pos hs]
        · rw [if_neg hs]
  · intro m r r'
    rfl

section
open MinimalCodeReviewPrompts

/-- C6: the minimal generator's review prompt depends only on the code of
the first added fragment and the first deleted fragment (so replacing or
dropping later fragments changes nothing), and it ends with the fixed
response-format footer requiring exactly the fields ISSUES, APPROVE,
REASON. -/
theorem claim_C6_minimal_first_only (a a' d d' : List Frag) (function_name : Str)
    (hA : firstCode a = firstCode a') (hD : firstCode d = firstCode d') :
    generate_review_prompt a d function_name =
      generate_review_prompt a' d' function_name ∧
    reviewFooter <:+ generate_review_prompt a d function_name := by
  constructor
  · simp only [generate_review_prompt]
    rw [hA, hD]
  · exact ⟨_, rfl⟩

/-- C6 witness: two added lists sharing the first fragment's code but with
different tails (and likewise for deleted lists) produce the same prompt,
which carries the ISSUES/APPROVE/REASON footer. -/
theorem claim_C6_minimal_first_only_witness :
    generate_review_prompt
        [Frag.dict (some ("x = 1".toList)), Frag.block 1 2 ("junk".toList) 9]
        [Frag.block 3 4 ("y = 2".toList) 1] ("f".toList) =
      generate_review_prompt [Frag.dict (some ("x = 1".toList))]
        [Frag.block 9 9 ("y = 2".toList) 5, Frag.dict none] ("f".toList) ∧
    reviewFooter <:+ generate_review_prompt
        [Frag.dict (some ("x = 1".toList)), Frag.block 1 2 ("junk".toList) 9]
        [Frag.block 3 4 ("y = 2".toList) 1] ("f".toList) :=
  claim_C6_minimal_first_only _ _ _ _ _ (by decide) (by decide)

/-- C10: the minimal generator's duplication prompt special-cases only an
empty match list (returning the canned no-duplication answer); with a
non-empty match list it returns the comparison prompt even for a blank
snippet — unlike the full generator, which returns the empty string there. -/
theorem claim_C10_minimal_duplication (code_snippet : Str) (m : Similar)
    (r : List Similar) (function_name : Str) :
    generate_duplication_prompt code_snippet [] = noDupAnswer ∧
    generate_duplication_prompt code_snippet (m :: r) ≠ [] ∧
    generate_duplication_prompt code_snippet (m :: r) ≠ noDupAnswer ∧
    (strip code_snippet = [] →
      CodeReviewPromptGenerator.generate_duplication_check_prompt code_snippet
        (m :: r) function_name = []) := by
  have hh : (generate_duplication_prompt code_snippet (m :: r)).head? =
      some 'C' := by
    unfold generate_duplication_prompt
    repeat apply head?_append_left
    rfl
  refine ⟨rfl, ?_, ?_, ?_⟩
  · intro e
    rw [e] at hh
    simp at hh
  · intro e
    rw [e] at hh
    exact absurd hh (by decide)
  · intro hs
    unfold CodeReviewPromptGenerator.generate_duplication_check_prompt
    rw [if_pos hs]

/-- C10 witness: with the whitespace-only snippet `"   "` and one match,
the minimal generator still produces a (non-canned, non-empty) comparison
prompt while the full generator returns the empty string. -/
theorem claim_C10_minimal_duplication_witness :
    strip ("   ".toList) = [] ∧
    CodeReviewPromptGenerator.generate_duplication_check_prompt ("   ".toList)
      [Similar.mk none (some ("x = 1".toList)) none] ("f".toList) = [] ∧
    generate_duplication_prompt ("   ".toList)
      [Similar.mk none (some ("x = 1".toList)) none] ≠ noDupAnswer :=
  ⟨by decide,
    (claim_C10_minimal_duplication ("   ".toList)
      (Similar.mk none (some ("x = 1".toList)) none) [] ("f".toList)).2.2.2
      (by decide),
    (claim_C10_minimal_duplication ("   ".toList)
      (Similar.mk none (some ("x = 1".toList)) none) [] ("f".toList)).2.2.1⟩

end

/-- C9: fragments are consumed only for their code text: two added (resp.
deleted) fragment lists that agree pointwise on the code field — however
much they differ in start line, end line, or line count — give identical
style review prompts, and identical contextual review prompts (which
delegate to the style prompt). -/
theorem claim_C9_fragments_code_only (a1 a2 d1 d2 : List Frag)
    (full_function_code function_name : Str)
    (hA : List.Forall₂ (fun x y => fragCode x = fragCode y) a1 a2)
    (hD : List.Forall₂ (fun x y => fragCode x = fragCode y) d1 d2) :
    CodeReviewPromptGenerator.generate_style_review_prompt a1 d1
        full_function_code function_name =
      CodeReviewPromptGenerator.generate_style_review_prompt a2 d2
        full_function_code function_name ∧
    CodeReviewPromptGenerator.generate_contextual_review_prompt
        (CodeReviewPromptGenerator.Payload.mk a1 d1 full_function_code function_name) =
      CodeReviewPromptGenerator.generate_contextual_review_prompt
        (CodeReviewPromptGenerator.Payload.mk a2 d2 full_function_code function_name) := by
  have e : CodeReviewPromptGenerator.generate_style_review_prompt a1 d1
      full_function_code function_name =
    CodeReviewPromptGenerator.generate_style_review_prompt a2 d2
      full_function_code function_name := by
    simp only [CodeReviewPromptGenerator.generate_style_review_prompt]
    rw [blocksOf_eq (map_eq_of_forall₂ hA), blocksOf_eq (map_eq_of_forall₂ hD)]
  exact ⟨e, e⟩

/-- C9 witness: fragment lists equal in code but different in line
metadata produce the same style and contextual prompts. -/
theorem claim_C9_fragments_code_only_witness :
    CodeReviewPromptGenerator.generate_style_review_prompt
        [Frag.block 1 2 ("a = 1".toList) 2] [Frag.dict (some ("b = 2".toList))]
        ("def f():\n    pass".toList) ("f".toList) =
      CodeReviewPromptGenerator.generate_style_review_prompt
        [Frag.block 50 99 ("a = 1".toList) 7] [Frag.block 0 0 ("b = 2".toList) 0]
        ("def f():\n    pass".toList) ("f".toList) ∧
    CodeReviewPromptGenerator.generate_contextual_review_prompt
        (CodeReviewPromptGenerator.Payload.mk [Frag.block 1 2 ("a = 1".toList) 2]
          [Frag.dict (some ("b = 2".toList))] ("def f():\n    pass".toList)
          ("f".toList)) =
      CodeReviewPromptGenerator.generate_contextual_review_prompt
        (CodeReviewPromptGenerator.Payload.mk [Frag.block 50 99 ("a = 1".toList) 7]
          [Frag.block 0 0 ("b = 2".toList) 0] ("def f():\n    pass".toList)
          ("f".toList)) :=
  claim_C9_fragments_code_only _ _ _ _ _ _
    (List.Forall₂.cons rfl List.Forall₂.nil)
    (List.Forall₂.cons rfl List.Forall₂.nil)

section
open CodeReviewPromptGenerator

theorem contextSection_del_only {ffc name : Str} (h : ffc.isEmpty = false) :
    contextSection ffc name false true =
      "Current function `".toList ++ name ++
        "` (after removal):\n```python\n".toList ++ clean_code ffc ++
        "\n```\n".toList := by
  unfold contextSection
  rw [h]
  rfl

theorem contextSection_add {ffc name : Str} (h : ffc.isEmpty = false)
    (hD : Bool) :
    contextSection ffc name true hD =
      "Full function `".toList ++ name ++ "`:\n```python\n".toList ++
        clean_code ffc ++ "\n```\n".toList := by
  unfold contextSection
  rw [h]
  cases hD <;> rfl

theorem contextSection_none (ffc name : Str) :
    contextSection ffc name false false = [] := by
  unfold contextSection
  split <;> rfl

theorem generate_style_unfold (added_code deleted_code : List Frag)
    (full_function_code function_name : Str) :
    generate_style_review_prompt added_code deleted_code full_function_code
        function_name =
      styleHead ++
        instructionContext (!(blocksOf added_code).isEmpty)
          (!(blocksOf deleted_code).isEmpty) ++
        "\n\n".toList ++
        contextSection full_function_code function_name
          (!(blocksOf added_code).isEmpty) (!(blocksOf deleted_code).isEmpty) ++
        changesSection (blocksOf added_code) (blocksOf deleted_code) ++
        styleFooter := by
  show strip (styleHead ++
      instructionContext (!(blocksOf added_code).isEmpty)
        (!(blocksOf deleted_code).isEmpty) ++
      "\n\n".toList ++
      contextSection full_function_code function_name
        (!(blocksOf added_code).isEmpty) (!(blocksOf deleted_code).isEmpty) ++
      changesSection (blocksOf added_code) (blocksOf deleted_code) ++
      styleFooter) = _
  apply strip_eq_self_of (c := '#') (d := ']')
  · repeat apply head?_append_left
    rfl
  · decide
  · apply revHead_append
    decide
  · decide

/-- C3: when the full-function text is non-empty: if there are normalized
deletion blocks and no addition blocks, the context section is labeled
"Current function `name` (after removal):" and the prompt's instruction
sentence contains "after the removal."; if addition blocks are present
(alone or with deletions) the context section is labeled
"Full function `name`:"; and with neither kind of block no context
section is emitted at all. -/
theorem claim_C3_context_policy (added_code deleted_code : List Frag)
    (full_function_code function_name : Str)
    (hffc : full_function_code ≠ []) :
    ((blocksOf deleted_code ≠ [] ∧ blocksOf added_code = []) →
      contextSection full_function_code function_name
          (!(blocksOf added_code).isEmpty) (!(blocksOf deleted_code).isEmpty) =
        "Current function `".toList ++ function_name ++
          "` (after removal):\n```python\n".toList ++
          clean_code full_function_code ++ "\n```\n".toList ∧
      containsSub ("after the removal.".toList)
        (generate_style_review_prompt added_code deleted_code
          full_function_code function_name) = true) ∧
    (blocksOf added_code ≠ [] →
      contextSection full_function_code function_name
          (!(blocksOf added_code).isEmpty) (!(blocksOf deleted_code).isEmpty) =
        "Full function `".toList ++ function_name ++ "`:\n```python\n".toList ++
          clean_code full_function_code ++ "\n```\n".toList) ∧
    ((blocksOf added_code = [] ∧ blocksOf deleted_code = []) →
      contextSection full_function_code function_name
          (!(blocksOf added_code).isEmpty) (!(blocksOf deleted_code).isEmpty) =
        []) := by
  have hE : full_function_code.isEmpty = false := isEmpty_false_of_ne hffc
  refine ⟨?_, ?_, ?_⟩
  · rintro ⟨hD, hA⟩
    have bA : (!(blocksOf added_code).isEmpty) = false := by rw [hA]; rfl
    have bD : (!(blocksOf deleted_code).isEmpty) = true := by
      rw [isEmpty_false_of_ne hD]; rfl
    constructor
    · rw [bA, bD, contextSection_del_only hE]
    · rw [generate_style_unfold, bA, bD]
      apply containsSub_append_left
      apply containsSub_append_left
      apply containsSub_append_left
      apply containsSub_append_left
      apply containsSub_append_right
      decide
  · intro hA
    have bA : (!(blocksOf added_code).isEmpty) = true := by
      rw [isEmpty_false_of_ne hA]; rfl
    rw [bA, contextSection_add hE]
  · rintro ⟨hA, hD⟩
    have bA : (!(blocksOf added_code).isEmpty) = false := by rw [hA]; rfl
    have bD : (!(blocksOf deleted_code).isEmpty) = false := by rw [hD]; rfl
    rw [bA, bD, contextSection_none]

/-- C3 witness: with full-function text `"pass"`, one deleted fragment and
no added fragments, the context section carries the after-removal label and
the prompt contains "after the removal.". -/
theorem claim_C3_context_policy_witness :
    contextSection ("pass".toList) ("f".toList)
        (!(blocksOf ([] : List Frag)).isEmpty)
        (!(blocksOf [Frag.dict (some ("x = 1".toList))]).isEmpty) =
      "Current function `".toList ++ "f".toList ++
        "` (after removal):\n```python\n".toList ++
        clean_code ("pass".toList) ++ "\n```\n".toList ∧
    containsSub ("after the removal.".toList)
      (generate_style_review_prompt [] [Frag.dict (some ("x = 1".toList))]
        ("pass".toList) ("f".toList)) = true :=
  (claim_C3_context_policy [] [Frag.dict (some ("x = 1".toList))]
      ("pass".toList) ("f".toList) (by decide)).1 ⟨by decide, by decide⟩

end

example : CodeReviewPromptGenerator.clean_code ("  a\n  b".toList) = "a\n  b".toList := by decide
example : CodeReviewPromptGenerator.clean_code ("   \n \t ".toList) = [] := by decide
example : CodeReviewPromptGenerator.clean_code ("\n  x\n    y\n\n".toList) = "x\n    y".toList := by decide
example : CodeReviewPromptGenerator.extract_key_info ("SUMMARY: ok\nISSUES: none found".toList) ("ISSUES".toList) = "none found".toList := by decide
example : CodeReviewPromptGenerator.extract_key_info [] ("ISSUES".toList) = "No issues".toList := by decide
example : CodeReviewPromptGenerator.extract_key_info ("I am Sorry, no".toList) ("ISSUES".toList) = "No issues".toList := by decide
example : CodeReviewPromptGenerator.extract_key_info ("ISSUES none here\nISSUES: real".toList) ("ISSUES".toList) = "real".toList := by decide
example : get_prompt_generator ("DeepSeek-Coder-6.7b".toList) = .minimal := by decide
example : get_prompt_generator ("gpt-4".toList) = .full := by decide
example : MinimalCodeReviewPrompts.clean_code ("  ab  ".toList) = "ab".toList := by decide
